import Mathlib

/-!
# Verification of the 1D kinematics solver (`src/kinematics/1d/solve.py`)

This file is a shallow embedding of the repository's single source file, a
sympy-based solver for one-dimensional constant-acceleration kinematics
problems, together with proofs settling the specification's claims about it.

Modelling conventions:

* Python floats are modelled as exact rationals (`ℚ`).
* The two per-problem variable dictionaries (`initial`, `final`) are modelled
  as association lists `KState := List (String × Expr)` with Python-dict
  semantics: lookup finds the first matching key; assignment updates an
  existing key in place and appends a fresh key at the end.
* The sympy boundary (symbol creation, `Eq`, `solve(..., dict=True)`,
  `is_number`, `evalf`) is external to the repository; the spec (§6) describes
  it as a collaborator offering symbol creation, equation construction,
  equation solving returning zero or more variable-to-expression bindings,
  numeric-literal testing and numeric evaluation.  It is modelled below by
  `Expr`, `Eqn`, `solveCAS`, `Expr.is_number` and `Expr.evalf`.
* Python functions that fall off the end return `None`; this is modelled with
  `Option`.  The resolver's uncaught exceptions are modelled with `Except`,
  the error value carrying the state of the two (mutated-in-place)
  dictionaries at the moment the exception is raised.
-/

/-- Symbolic expressions, modelling the sympy expressions the solver builds:
numeric literals, symbols (e.g. `t1`), and the arithmetic operations used by
the five equations (`+`, `-`, unary minus, `*`, `/`, natural powers). -/
inductive Expr where
  | num (q : ℚ)
  | sym (name : String)
  | neg (a : Expr)
  | add (a b : Expr)
  | sub (a b : Expr)
  | mul (a b : Expr)
  | div (a b : Expr)
  | pow (a : Expr) (n : Nat)
  deriving Repr, DecidableEq

/-- Numeric evaluation of an expression: `some q` exactly when the expression
is a pure number (sympy `is_number`), in which case `q` is its value.
Mirrors sympy's automatic simplification `0 * expr = 0` and `0 / expr = 0`
(a product or quotient with one symbolic operand is numeric only when the
numeric operand is zero).  Division by a zero literal cannot arise from the
five equations (they contain no division). -/
def Expr.evalNum? : Expr → Option ℚ
  | .num q => some q
  | .sym _ => none
  | .neg a => (evalNum? a).map (fun x => -x)
  | .add a b => (evalNum? a).bind (fun x => (evalNum? b).map (fun y => x + y))
  | .sub a b => (evalNum? a).bind (fun x => (evalNum? b).map (fun y => x - y))
  | .mul a b =>
    match evalNum? a, evalNum? b with
    | some x, some y => some (x * y)
    | some x, none => if x = 0 then some 0 else none
    | none, some y => if y = 0 then some 0 else none
    | none, none => none
  | .div a b =>
    match evalNum? a, evalNum? b with
    | some x, some y => some (x / y)
    | some x, none => if x = 0 then some 0 else none
    | none, _ => none
  | .pow a n => (evalNum? a).map (fun x => x ^ n)

/-- sympy's `is_number`: the expression evaluates to a pure number. -/
def Expr.is_number (e : Expr) : Bool :=
  (Expr.evalNum? e).isSome

/-- sympy's `evalf`: numeric evaluation; leaves the expression unchanged when
it is not a pure number (the solver only calls it on pure numbers). -/
def Expr.evalf (e : Expr) : Expr :=
  match Expr.evalNum? e with
  | some q => .num q
  | none => e

/-- The (duplicate-free, sorted) list of symbol names occurring in an
expression, with duplicates: raw traversal. -/
def Expr.syms : Expr → List String
  | .num _ => []
  | .sym n => [n]
  | .neg a => a.syms
  | .add a b => a.syms ++ b.syms
  | .sub a b => a.syms ++ b.syms
  | .mul a b => a.syms ++ b.syms
  | .div a b => a.syms ++ b.syms
  | .pow a _ => a.syms

/-- Lexicographic comparison of character lists by code point. -/
def charListLt : List Char → List Char → Bool
  | [], [] => false
  | [], _ :: _ => true
  | _ :: _, [] => false
  | c :: cs, d :: ds =>
    if c.toNat < d.toNat then true
    else if d.toNat < c.toNat then false
    else charListLt cs ds

/-- Lexicographic string order (structural, code-point-wise), the order
sympy's `default_sort_key` induces on the solver's ASCII symbol names. -/
def strLt (a b : String) : Bool :=
  charListLt a.data b.data

/-- Insert a name into a sorted duplicate-free list of names. -/
def insertSym (s : String) : List String → List String
  | [] => [s]
  | t :: rest =>
    if s = t then t :: rest
    else if strLt s t then s :: t :: rest
    else t :: insertSym s rest

/-- The free symbols of an expression, sorted by name without duplicates
(sympy orders the unknowns of an equation alphabetically). -/
def sortedSyms (e : Expr) : List String :=
  (Expr.syms e).foldr insertSym []

/-- A sympy `Eq(lhs, rhs)` object, as built by the solver from the two
completed state dictionaries. -/
structure Eqn where
  lhs : Expr
  rhs : Expr
  deriving Repr, DecidableEq

/-- One solution set, as produced by `solve(..., dict=True)`: a dictionary
mapping symbols (identified by name) to expressions, modelled as an
association list. -/
abbrev SolSet := List (String × Expr)

/-- A Python `dict[str, float]` holding a kinematic state: keys among
`s`, `t`, `v`, `a`, values either numbers or symbolic placeholders. -/
abbrev KState := List (String × Expr)

/-- Python-dict lookup: first binding of the key, if any. -/
def KState.get? : KState → String → Option Expr
  | [], _ => none
  | (k, v) :: rest, key => if k = key then some v else KState.get? rest key

/-- Python-dict assignment `d[key] = val`: updates an existing key in place,
appends a fresh key at the end. -/
def KState.set : KState → String → Expr → KState
  | [], key, val => [(key, val)]
  | (k, v) :: rest, key, val =>
    if k = key then (key, val) :: rest else (k, v) :: KState.set rest key val

/-- The four variable names the completer loops over
(`variable_prefixes = ['s', 't', 'v', 'a']` in the source). -/
def variableNames : List String := ["s", "t", "v", "a"]

/-- One iteration of the completer's inner loop: if `name` is absent from the
group, bind it to the symbol `name ++ group_number`
(`group[name] = symbols(f'{name}{group_number}')`). -/
def completeStep (groupNumber : Nat) (group : KState) (name : String) : KState :=
  if (KState.get? group name).isSome then group
  else KState.set group name (Expr.sym (name ++ toString groupNumber))

/-- The variable completer for one group: fills every absent variable name
with a symbolic placeholder tagged by the group index (0 = initial,
1 = final).  The source mutates the dictionaries in place inside
`problem_solver`; here the updated dictionary is returned. -/
def completeGroup (groupNumber : Nat) (group : KState) : KState :=
  variableNames.foldl (completeStep groupNumber) group

/-- The `big_5` list of kinematic equations, built verbatim from the source
(including equation 5's `(s1 + s0)` factor) over the two completed states. -/
def big_5 (initial final : KState) : List Eqn :=
  let ig := fun k => (KState.get? initial k).getD (Expr.num 0)
  let fg := fun k => (KState.get? final k).getD (Expr.num 0)
  [ ⟨fg "v", Expr.add (ig "v") (Expr.mul (ig "a") (Expr.sub (fg "t") (ig "t")))⟩,
    ⟨Expr.sub (fg "s") (ig "s"),
      Expr.add
        (Expr.mul (Expr.mul (Expr.num 0.5) (ig "a")) (Expr.pow (Expr.sub (fg "t") (ig "t")) 2))
        (Expr.mul (ig "v") (Expr.sub (fg "t") (ig "t")))⟩,
    ⟨Expr.pow (fg "v") 2,
      Expr.add (Expr.pow (ig "v") 2)
        (Expr.mul (Expr.mul (Expr.num 2) (ig "a")) (Expr.sub (fg "s") (ig "s")))⟩,
    ⟨Expr.sub (fg "s") (ig "s"),
      Expr.add
        (Expr.mul (Expr.mul (Expr.num (-0.5)) (ig "a")) (Expr.pow (Expr.sub (fg "t") (ig "t")) 2))
        (Expr.mul (fg "v") (Expr.sub (fg "t") (ig "t")))⟩,
    ⟨Expr.sub (fg "s") (ig "s"),
      Expr.mul (Expr.mul (Expr.num 0.5) (Expr.add (fg "s") (ig "s")))
        (Expr.sub (fg "t") (ig "t"))⟩ ]

/-- Polynomial coefficients `(c, b, a)` of an expression viewed as
`c + b*x + a*x^2` in the symbol `x`; `none` when the expression is not a
polynomial of degree at most 2 in `x` of the shapes the five equations can
produce (products of two `x`-dependent factors beyond a squared linear term
are not needed and not supported). -/
def coeffs (x : String) : Expr → Option (Expr × Expr × Expr)
  | .num q => some (.num q, .num 0, .num 0)
  | .sym n =>
    if n = x then some (.num 0, .num 1, .num 0) else some (.sym n, .num 0, .num 0)
  | .neg a => (coeffs x a).map (fun p => (.neg p.1, .neg p.2.1, .neg p.2.2))
  | .add a b =>
    (coeffs x a).bind (fun p =>
      (coeffs x b).map (fun q => (.add p.1 q.1, .add p.2.1 q.2.1, .add p.2.2 q.2.2)))
  | .sub a b =>
    (coeffs x a).bind (fun p =>
      (coeffs x b).map (fun q => (.sub p.1 q.1, .sub p.2.1 q.2.1, .sub p.2.2 q.2.2)))
  | .mul a b =>
    if x ∈ Expr.syms a then
      if x ∈ Expr.syms b then none
      else (coeffs x a).map (fun p => (.mul p.1 b, .mul p.2.1 b, .mul p.2.2 b))
    else (coeffs x b).map (fun q => (.mul a q.1, .mul a q.2.1, .mul a q.2.2))
  | .div a b =>
    if x ∈ Expr.syms b then none
    else if x ∈ Expr.syms a then
      (coeffs x a).map (fun p => (.div p.1 b, .div p.2.1 b, .div p.2.2 b))
    else some (.div a b, .num 0, .num 0)
  | .pow a n =>
    if x ∈ Expr.syms a then
      if n = 2 then
        (coeffs x a).bind (fun p =>
          if Expr.evalNum? p.2.2 = some 0 then
            some (.mul p.1 p.1, .mul (.num 2) (.mul p.1 p.2.1), .mul p.2.1 p.2.1)
          else none)
      else if n = 1 then coeffs x a
      else if n = 0 then some (.num 1, .num 0, .num 0)
      else none
    else some (.pow a n, .num 0, .num 0)

/-- Exact natural square root of `m`, searched downward from `k`. -/
def sqrtBelow : Nat → Nat → Option Nat
  | 0, m => if m = 0 then some 0 else none
  | k + 1, m => if (k + 1) * (k + 1) = m then some (k + 1) else sqrtBelow k m

/-- Rational square root, when it exists. -/
def ratSqrt? (q : ℚ) : Option ℚ :=
  if q < 0 then none
  else
    match sqrtBelow q.num.toNat q.num.toNat, sqrtBelow q.den q.den with
    | some sn, some sd => some ((sn : ℚ) / (sd : ℚ))
    | _, _ => none

/-- Solutions of the linear equation `c + b*x = 0` for the symbol `x`,
mirroring sympy: a numeric root when both coefficients are numbers, the
root `0` when the constant part is the number `0` (sympy simplifies
`0 / expr` to `0`), and a symbolic root expression otherwise. -/
def linRoots (x : String) (c b : Expr) : List SolSet :=
  match Expr.evalNum? b, Expr.evalNum? c with
  | some bv, some cv => if bv = 0 then [] else [[(x, Expr.num (-cv / bv))]]
  | some bv, none => if bv = 0 then [] else [[(x, Expr.div (Expr.neg c) (Expr.num bv))]]
  | none, some cv =>
    if cv = 0 then [[(x, Expr.num 0)]] else [[(x, Expr.div (Expr.num (-cv)) b)]]
  | none, none => [[(x, Expr.div (Expr.neg c) b)]]

/-- Solutions of the numeric quadratic `c + b*x + a*x^2 = 0` (`a ≠ 0`),
real rational roots in ascending order as sympy returns them.  Irrational and
complex root pairs are outside this model (the claims never reach them). -/
def quadRoots (x : String) (a b c : ℚ) : List SolSet :=
  match ratSqrt? (b * b - 4 * a * c) with
  | none => []
  | some s =>
    let r1 := (-b - s) / (2 * a)
    let r2 := (-b + s) / (2 * a)
    if r1 = r2 then [[(x, Expr.num r1)]]
    else if r1 < r2 then [[(x, Expr.num r1)], [(x, Expr.num r2)]]
    else [[(x, Expr.num r2)], [(x, Expr.num r1)]]

/-- Solve `f = 0` for the single symbol `x`. -/
def solveFor (x : String) (f : Expr) : List SolSet :=
  match coeffs x f with
  | none => []
  | some (c, b, a) =>
    match Expr.evalNum? a with
    | none => []
    | some av =>
      if av = 0 then linRoots x c b
      else
        match Expr.evalNum? b, Expr.evalNum? c with
        | some bv, some cv => quadRoots x av bv cv
        | _, _ => []

/-- Try the sorted free symbols in order, returning the solution sets for the
first symbol that yields any. -/
def solveFirst (f : Expr) : List String → List SolSet
  | [] => []
  | x :: rest =>
    match solveFor x f with
    | [] => solveFirst f rest
    | sols => sols

/-- Modelled from the spec: the external symbolic equation-solving capability
(`sympy.solve(equation, dict=True)`), which is not part of this repository's
sources.  Per the spec's library boundary (§6) it returns zero or more
variable-to-expression bindings.  A symbol-free equation has collapsed to a
boolean (sympy evaluates `Eq` of two numbers) and yields no solution sets;
otherwise the equation is solved for its alphabetically first usable free
symbol, numeric roots of quadratics sorted ascending. -/
def solveCAS (e : Eqn) : List SolSet :=
  solveFirst (Expr.sub e.lhs e.rhs) (sortedSyms (Expr.sub e.lhs e.rhs))

/-- The body of the solver's scan of one equation's solve result:
`if solution:` then scan `solution[0].items()` for the first binding that is a
pure number and whose symbol name equals `find`; if found, numerically
evaluate it in place and return the whole solution list, else move on
(`none`). -/
def trySolution (find : String) (solution : List SolSet) : Option (List SolSet) :=
  match solution with
  | [] => none
  | s0 :: rest =>
    match s0.find? (fun b => b.2.is_number && b.1 == find) with
    | none => none
    | some (name, result) => some (KState.set s0 name (Expr.evalf result) :: rest)

/-- The solver's brute-force loop over the five equations: first equation
whose solve result contains a numeric binding for `find` wins; falling off
the end of the loop returns `None`. -/
def solveLoop (find : String) : List Eqn → Option (List SolSet)
  | [] => none
  | e :: rest =>
    match trySolution find (solveCAS e) with
    | some sol => some sol
    | none => solveLoop find rest

/-- `problem_solver` from the source: complete both groups with symbolic
placeholders (group 0 = initial, group 1 = final), then scan the `big_5`
equations for the requested variable. -/
def problem_solver (initial final : KState) (find : String) : Option (List SolSet) :=
  let initial := completeGroup 0 initial
  let final := completeGroup 1 final
  solveLoop find (big_5 initial final)

/-- `resolver` from the source: for each requested variable in order, invoke
`problem_solver` on the current state, take the first binding of the first
solution set (`next(iter(answer[0]))`), and write its value back into the
group selected by the last character of the symbol's name, under the first
character of the symbol's name.  A failed solver call leaves `answer = None`
and `answer[0]` raises `TypeError` (similarly a malformed shape or group
digit raises); this is modelled as `Except.error` carrying the two
dictionaries as already mutated at that point. -/
def resolver : KState → KState → List String → Except (KState × KState) (KState × KState)
  | initial, final, [] => .ok (initial, final)
  | initial, final, v :: rest =>
    match problem_solver initial final v with
    | none => .error (initial, final)
    | some [] => .error (initial, final)
    | some ([] :: _) => .error (initial, final)
    | some (((key, value) :: _) :: _) =>
      if key.back = '0' then resolver (KState.set initial key.front.toString value) final rest
      else if key.back = '1' then resolver initial (KState.set final key.front.toString value) rest
      else .error (initial, final)

/-- Specification-side resolver, following the spec's §4.3 contract wording:
"for each target in order invoke the Solver with the current
(possibly partially-filled-in) state, extract the single resulting binding,
and write it back into the appropriate state mapping (selecting `initial` or
`final` by the group-index suffix of the variable name).  Returns the two
fully/partially populated state mappings after processing all targets."
`none` when a solver call does not yield a single binding as the contract
presumes. -/
def resolverSpec : KState → KState → List String → Option (KState × KState)
  | initial, final, [] => some (initial, final)
  | initial, final, v :: rest =>
    match problem_solver initial final v with
    | some [[(key, value)]] =>
      if key.back = '0' then resolverSpec (KState.set initial key.front.toString value) final rest
      else if key.back = '1' then resolverSpec initial (KState.set final key.front.toString value) rest
      else none
    | _ => none

-- Concrete scenarios used by counterexamples and witnesses.

/-- Scenario from the source's `__main__` block: `initial = {s:0, t:0, v:0, a:9.8}`. -/
def iniMain : KState :=
  [("s", Expr.num 0), ("t", Expr.num 0), ("v", Expr.num 0), ("a", Expr.num 9.8)]

/-- Scenario from the source's `__main__` block: `final = {v:3e8}`. -/
def finMain : KState := [("v", Expr.num 3e8)]

/-- A fully known, physically consistent scenario (uniform acceleration 2):
`initial = {s:0, t:0, v:0, a:2}`. -/
def iniFull : KState :=
  [("s", Expr.num 0), ("t", Expr.num 0), ("v", Expr.num 0), ("a", Expr.num 2)]

/-- Fully known final state matching `iniFull` after one second:
`final = {s:1, t:1, v:2}`. -/
def finFull : KState := [("s", Expr.num 1), ("t", Expr.num 1), ("v", Expr.num 2)]

/-- Initial state for the quadratic scenario: `{s:0, t:0, v:0, a:2}`. -/
def iniQuad : KState := iniFull

/-- Final state for the quadratic scenario: only the position is known,
`final = {s:4}`, so solving for `t1` goes through the quadratic equation 2. -/
def finQuad : KState := [("s", Expr.num 4)]

/-- Underdetermined scenario for the negative test: only `s0` known. -/
def iniPoor : KState := [("s", Expr.num 0)]

/-- Underdetermined scenario for the negative test: nothing known finally. -/
def finPoor : KState := []

/-- Resolver chaining scenario: `initial = {s:0, t:0, v:0, a:2}`,
`final = {v:2}`; solving `t1` yields 1. -/
def finChain : KState := [("v", Expr.num 2)]

-- ## Association-list (Python dict) lemmas

theorem KState.get?_set_self (st : KState) (k : String) (v : Expr) :
    KState.get? (KState.set st k v) k = some v := by
  induction st with
  | nil => simp [KState.set, KState.get?]
  | cons hd tl ih =>
    obtain ⟨k', v'⟩ := hd
    by_cases h : k' = k <;> simp [KState.set, KState.get?, h, ih]

theorem KState.get?_set_ne (st : KState) (k k' : String) (v : Expr) (h : k' ≠ k) :
    KState.get? (KState.set st k v) k' = KState.get? st k' := by
  have hne : k ≠ k' := fun hh => h hh.symm
  induction st with
  | nil => simp [KState.set, KState.get?, hne]
  | cons hd tl ih =>
    obtain ⟨k'', v''⟩ := hd
    by_cases hk : k'' = k
    · subst hk
      simp [KState.set, KState.get?, hne]
    · simp [KState.set, KState.get?, hk, ih]

theorem KState.mem_set (st : KState) (k : String) (v : Expr) :
    (k, v) ∈ KState.set st k v := by
  induction st with
  | nil => simp [KState.set]
  | cons hd tl ih =>
    obtain ⟨k', v'⟩ := hd
    by_cases h : k' = k
    · simp [KState.set, h]
    · simp only [KState.set, if_neg h, List.mem_cons]
      exact Or.inr ih

-- ## Variable-completer lemmas

theorem get?_completeStep (g : Nat) (st : KState) (n k : String) :
    KState.get? (completeStep g st n) k =
      if k = n then some ((KState.get? st n).getD (Expr.sym (n ++ toString g)))
      else KState.get? st k := by
  unfold completeStep
  by_cases hn : (KState.get? st n).isSome
  · rw [if_pos hn]
    by_cases hk : k = n
    · subst hk
      obtain ⟨x, hx⟩ := Option.isSome_iff_exists.mp hn
      simp [hx]
    · simp [hk]
  · rw [if_neg hn]
    have hnone : KState.get? st n = none := Option.not_isSome_iff_eq_none.mp hn
    by_cases hk : k = n
    · subst hk
      rw [if_pos rfl, KState.get?_set_self, hnone]
      rfl
    · rw [if_neg hk, KState.get?_set_ne _ _ _ _ hk]

theorem get?_completeGroup (g : Nat) (st : KState) (k : String) :
    KState.get? (completeGroup g st) k =
      if k ∈ variableNames then some ((KState.get? st k).getD (Expr.sym (k ++ toString g)))
      else KState.get? st k := by
  by_cases hs : k = "s"
  · subst hs; simp [completeGroup, variableNames, List.foldl, get?_completeStep]
  · by_cases ht : k = "t"
    · subst ht; simp [completeGroup, variableNames, List.foldl, get?_completeStep]
    · by_cases hv : k = "v"
      · subst hv; simp [completeGroup, variableNames, List.foldl, get?_completeStep]
      · by_cases ha : k = "a"
        · subst ha; simp [completeGroup, variableNames, List.foldl, get?_completeStep]
        · simp [completeGroup, variableNames, List.foldl, get?_completeStep, hs, ht, hv, ha]

-- ## Solver-loop lemmas

theorem solveLoop_eq_find? (find : String) (l : List Eqn) :
    solveLoop find l =
      (l.find? (fun e => (trySolution find (solveCAS e)).isSome)).bind
        (fun e => trySolution find (solveCAS e)) := by
  induction l with
  | nil => rfl
  | cons e rest ih =>
    by_cases h : (trySolution find (solveCAS e)).isSome
    · obtain ⟨sol, hsol⟩ := Option.isSome_iff_exists.mp h
      rw [List.find?_cons_of_pos _ (by simp [h])]
      simp [solveLoop, hsol]
    · have hn : trySolution find (solveCAS e) = none :=
        Option.not_isSome_iff_eq_none.mp h
      rw [List.find?_cons_of_neg _ (by simp [h])]
      simp [solveLoop, hn, ih]

theorem solveLoop_eq_none (find : String) (l : List Eqn)
    (h : ∀ e ∈ l, trySolution find (solveCAS e) = none) :
    solveLoop find l = none := by
  induction l with
  | nil => rfl
  | cons e rest ih =>
    simp [solveLoop, h e (List.mem_cons_self e rest),
      ih (fun e' he' => h e' (List.mem_cons_of_mem e he'))]

theorem solveLoop_some (find : String) (l : List Eqn) (sol : List SolSet)
    (h : solveLoop find l = some sol) :
    ∃ e ∈ l, trySolution find (solveCAS e) = some sol := by
  induction l with
  | nil => simp [solveLoop] at h
  | cons e rest ih =>
    rw [solveLoop] at h
    cases he : trySolution find (solveCAS e) with
    | none =>
      rw [he] at h
      obtain ⟨e', he', hsol⟩ := ih h
      exact ⟨e', List.mem_cons_of_mem e he', hsol⟩
    | some s =>
      rw [he] at h
      cases h
      exact ⟨e, List.mem_cons_self e rest, he⟩

-- ## Claim theorems

-- The remaining proofs evaluate solver runs on concrete rationals; the
-- sealed rational-arithmetic definitions must be reducible for `decide`.
attribute [local semireducible] Rat.add Rat.mul Rat.sub Rat.inv Rat.ofScientific

/-- C1: for every pair of completed mappings and every target, the solver
attempts the five equations in their fixed listed order, and the returned
result comes from the first equation whose symbolic solve yields a purely
numeric binding named `find`; later equations are never the source of the
result when an earlier one matches (`List.find?` returns the first list
element satisfying its predicate). -/
theorem solver_first_numeric_match_wins (initial final : KState) (find : String) :
    problem_solver initial final find =
      ((big_5 (completeGroup 0 initial) (completeGroup 1 final)).find?
          (fun e => (trySolution find (solveCAS e)).isSome)).bind
        (fun e => trySolution find (solveCAS e)) :=
  solveLoop_eq_find? find _

/-- C2: the variable completer binds every absent one of the four variable
names to the symbolic placeholder tagged with the group index, leaves present
keys unchanged (the `getD` collapses both cases), leaves other keys alone,
and the placeholders for distinct name/group pairs are distinct.  The
function is total, modelling "no error conditions — always succeeds"; the
source's in-place mutation is modelled by returning the updated mapping. -/
theorem completer_fills_missing (st : KState) (g : Nat) :
    (∀ name ∈ variableNames,
      KState.get? (completeGroup g st) name =
        some ((KState.get? st name).getD (Expr.sym (name ++ toString g))))
    ∧ (∀ k, k ∉ variableNames → KState.get? (completeGroup g st) k = KState.get? st k)
    ∧ (∀ n₁ n₂, n₁ ∈ variableNames → n₂ ∈ variableNames → ∀ g₁ g₂ : Nat,
        g₁ ≤ 1 → g₂ ≤ 1 → (n₁ ≠ n₂ ∨ g₁ ≠ g₂) →
        n₁ ++ toString g₁ ≠ n₂ ++ toString g₂) := by
  refine ⟨?_, ?_, ?_⟩
  · intro name hn
    rw [get?_completeGroup, if_pos hn]
  · intro k hk
    rw [get?_completeGroup, if_neg hk]
  · intro n₁ n₂ h₁ h₂ g₁ g₂ hg₁ hg₂ hne
    simp only [variableNames, List.mem_cons, List.mem_singleton,
      List.not_mem_nil, or_false] at h₁ h₂
    interval_cases g₁ <;> interval_cases g₂ <;>
      rcases h₁ with rfl | rfl | rfl | rfl <;>
      rcases h₂ with rfl | rfl | rfl | rfl <;>
      revert hne <;> decide

/-- Witness for C2 at the concrete input of an empty final mapping: the
completer binds the absent key `a` of group 1 to the placeholder `a1`. -/
theorem completer_fills_missing_witness :
    KState.get? (completeGroup 1 ([] : KState)) "a" =
      some ((KState.get? ([] : KState) "a").getD (Expr.sym ("a" ++ toString 1))) :=
  (completer_fills_missing [] 1).1 "a" (by decide)

/-- C4: when no equation of the five produces a purely numeric binding whose
name equals the requested target, the solver yields `none` (Python: falls off
the loop and returns `None`); being a total function it raises nothing, and
returning `none` it returns no binding for any other variable. -/
theorem solver_none_without_numeric_target (initial final : KState) (find : String)
    (h : ∀ e ∈ big_5 (completeGroup 0 initial) (completeGroup 1 final),
        ∀ s ∈ solveCAS e, ∀ b ∈ s, ¬(b.2.is_number = true ∧ b.1 = find)) :
    problem_solver initial final find = none := by
  refine solveLoop_eq_none find _ (fun e he => ?_)
  cases hs : solveCAS e with
  | nil => rfl
  | cons s0 rest =>
    have hnone : s0.find? (fun b => b.2.is_number && b.1 == find) = none := by
      rw [List.find?_eq_none]
      intro b hb
      have := h e he s0 (by rw [hs]; exact List.mem_cons_self s0 rest) b hb
      simp only [Bool.and_eq_true, beq_iff_eq]
      exact fun hc => this ⟨hc.1, hc.2⟩
    rw [trySolution, hnone]

/-- Witness for C4 at the spec's negative test: only `s0 = 0` known and the
final mapping empty; solving for `v1` yields `none`. -/
theorem solver_none_without_numeric_target_witness :
    problem_solver iniPoor finPoor "v1" = none :=
  solver_none_without_numeric_target iniPoor finPoor "v1" (by decide)

/-- C9: the source's `__main__` scenario, initial `{s:0, t:0, v:0, a:9.8}`
and final `{v:3e8}`: solving for `t1` yields the numeric value `3e8 / 9.8`
(here in exact rational arithmetic, `1500000000/49 ≈ 30612244.898`). -/
theorem solver_scenario1_t1 :
    problem_solver iniMain finMain "t1" =
      some [[("t1", Expr.num ((3e8 : ℚ) / (9.8 : ℚ)))]] := by decide

/-- C5 counterexample: a fully known, mutually consistent scenario
(`s0=0, t0=0, v0=0, a0=2, s1=1, t1=1, v1=2`) in which solving for the
already-known `v1` returns nothing at all — every equation collapses to a
symbol-free boolean whose solve yields no solution sets — instead of the
known value `2` the claim promises. -/
theorem solver_roundtrip_cex : problem_solver iniFull finFull "v1" = none := by decide

/-- C5 amended: for every fully known scenario (consistent or not), solving
for any variable returns no result (`none`): all five equations are built
from numbers only, so no symbol can be bound at all. -/
theorem solver_fully_known_returns_none (s0 t0 v0 a0 s1 t1 v1 : ℚ) (find : String) :
    problem_solver
      [("s", Expr.num s0), ("t", Expr.num t0), ("v", Expr.num v0), ("a", Expr.num a0)]
      [("s", Expr.num s1), ("t", Expr.num t1), ("v", Expr.num v1)] find = none := by
  show solveLoop find (big_5
    (completeGroup 0 [("s", Expr.num s0), ("t", Expr.num t0), ("v", Expr.num v0), ("a", Expr.num a0)])
    (completeGroup 1 [("s", Expr.num s1), ("t", Expr.num t1), ("v", Expr.num v1)])) = none
  rw [show completeGroup 0
        [("s", Expr.num s0), ("t", Expr.num t0), ("v", Expr.num v0), ("a", Expr.num a0)] =
      [("s", Expr.num s0), ("t", Expr.num t0), ("v", Expr.num v0), ("a", Expr.num a0)] from rfl,
    show completeGroup 1 [("s", Expr.num s1), ("t", Expr.num t1), ("v", Expr.num v1)] =
      [("s", Expr.num s1), ("t", Expr.num t1), ("v", Expr.num v1), ("a", Expr.sym "a1")] from rfl]
  rw [show big_5
      [("s", Expr.num s0), ("t", Expr.num t0), ("v", Expr.num v0), ("a", Expr.num a0)]
      [("s", Expr.num s1), ("t", Expr.num t1), ("v", Expr.num v1), ("a", Expr.sym "a1")] =
    [ ⟨Expr.num v1, Expr.add (Expr.num v0) (Expr.mul (Expr.num a0) (Expr.sub (Expr.num t1) (Expr.num t0)))⟩,
      ⟨Expr.sub (Expr.num s1) (Expr.num s0),
        Expr.add
          (Expr.mul (Expr.mul (Expr.num 0.5) (Expr.num a0)) (Expr.pow (Expr.sub (Expr.num t1) (Expr.num t0)) 2))
          (Expr.mul (Expr.num v0) (Expr.sub (Expr.num t1) (Expr.num t0)))⟩,
      ⟨Expr.pow (Expr.num v1) 2,
        Expr.add (Expr.pow (Expr.num v0) 2)
          (Expr.mul (Expr.mul (Expr.num 2) (Expr.num a0)) (Expr.sub (Expr.num s1) (Expr.num s0)))⟩,
      ⟨Expr.sub (Expr.num s1) (Expr.num s0),
        Expr.add
          (Expr.mul (Expr.mul (Expr.num (-0.5)) (Expr.num a0)) (Expr.pow (Expr.sub (Expr.num t1) (Expr.num t0)) 2))
          (Expr.mul (Expr.num v1) (Expr.sub (Expr.num t1) (Expr.num t0)))⟩,
      ⟨Expr.sub (Expr.num s1) (Expr.num s0),
        Expr.mul (Expr.mul (Expr.num 0.5) (Expr.add (Expr.num s1) (Expr.num s0)))
          (Expr.sub (Expr.num t1) (Expr.num t0))⟩ ] from rfl]
  refine solveLoop_eq_none find _ (fun e he => ?_)
  simp only [List.mem_cons, List.not_mem_nil, or_false] at he
  rcases he with rfl | rfl | rfl | rfl | rfl <;> rfl

/-- Shape of a successful `trySolution`: the input had a first solution set
containing a numeric binding for the target, and the output is the input
with that binding numerically evaluated in place. -/
theorem trySolution_some (find : String) (solution sol : List SolSet)
    (h : trySolution find solution = some sol) :
    ∃ s0 rest name result,
      solution = s0 :: rest ∧
      s0.find? (fun b => b.2.is_number && b.1 == find) = some (name, result) ∧
      sol = KState.set s0 name (Expr.evalf result) :: rest := by
  cases solution with
  | nil => simp [trySolution] at h
  | cons s0 rest =>
    rw [trySolution] at h
    cases hf : s0.find? (fun b => b.2.is_number && b.1 == find) with
    | none => rw [hf] at h; cases h
    | some nr =>
      obtain ⟨name, result⟩ := nr
      rw [hf] at h
      cases h
      exact ⟨s0, rest, name, result, rfl, hf, rfl⟩

/-- C6 counterexample: initial `{s:0, t:0, v:0, a:2}`, final `{s:4}`,
target `t1`: equation 2 degenerates to `4 = t1²`, the symbolic solve yields
the two solution sets `{t1: -2}` and `{t1: 2}`, and the solver returns both
— the result is not a single-entry solution set. -/
theorem solver_extra_solution_sets_cex :
    problem_solver iniQuad finQuad "t1" =
      some [[("t1", Expr.num (-2))], [("t1", Expr.num 2)]] ∧
    (problem_solver iniQuad finQuad "t1").map List.length ≠ some 1 := by decide

/-- C6 amended: whenever the solver succeeds, the returned value is a
nonempty list of solution sets whose first set binds the requested target to
a numeric value (numerically evaluated); when the matched equation's
symbolic solve yields several alternative solution sets, the extra sets are
returned as well, unmodified. -/
theorem solver_success_binds_target (initial final : KState) (find : String)
    (sol : List SolSet) (h : problem_solver initial final find = some sol) :
    ∃ s rest, sol = s :: rest ∧ ∃ q : ℚ, (find, Expr.num q) ∈ s := by
  obtain ⟨e, -, he⟩ := solveLoop_some find _ sol h
  obtain ⟨s0, rest, name, result, -, hf, hsol⟩ := trySolution_some find _ sol he
  have hpred := List.find?_some hf
  simp only [Bool.and_eq_true, beq_iff_eq] at hpred
  obtain ⟨hnum, hname⟩ := hpred
  obtain ⟨q, hq⟩ := Option.isSome_iff_exists.mp hnum
  have hevalf : Expr.evalf result = Expr.num q := by
    rw [Expr.evalf, hq]
  subst hname
  refine ⟨KState.set s0 name (Expr.evalf result), rest, hsol, q, ?_⟩
  rw [hevalf]
  exact KState.mem_set s0 name (Expr.num q)

/-- Witness for C6's amended claim at the quadratic scenario. -/
theorem solver_success_binds_target_witness :
    ∃ s rest,
      [[("t1", Expr.num (-2))], [("t1", Expr.num 2)]] = s :: rest ∧
      ∃ q : ℚ, ("t1", Expr.num q) ∈ s :=
  solver_success_binds_target iniQuad finQuad "t1" _ (by decide)

/-- C7 counterexample: after the variable-completion step runs on the
source's own `__main__` final mapping `{v:3e8}`, the final mapping does
contain an entry for `a` (the placeholder `a1`): the completer loops over
all four names for both groups. -/
theorem final_contains_acceleration_cex :
    KState.get? (completeGroup 1 finMain) "a" = some (Expr.sym "a1") := by decide

/-- C7 amended: the completer fills `a` into the final mapping (as the
placeholder `a1`) whenever it is absent — so after completion the final
mapping always contains an `a` entry — but no equation ever reads the final
mapping's `a`: the solver's result is unchanged by any final `a` entry.
Before completion, the final mapping contains `a` only if the caller put it
there. -/
theorem final_acceleration_placeholder_unused :
    (∀ st : KState, KState.get? (completeGroup 1 st) "a" =
        some ((KState.get? st "a").getD (Expr.sym "a1")))
    ∧ ∀ (ini fin : KState) (x : Expr) (find : String),
        problem_solver ini (KState.set fin "a" x) find = problem_solver ini fin find := by
  constructor
  · intro st
    have h1 : ("a" : String) ++ toString (1 : Nat) = "a1" := rfl
    rw [get?_completeGroup, if_pos (by decide : ("a" : String) ∈ variableNames), h1]
  · intro ini fin x find
    have hk : ∀ k : String, k ≠ "a" →
        KState.get? (completeGroup 1 (KState.set fin "a" x)) k =
          KState.get? (completeGroup 1 fin) k := by
      intro k hka
      rw [get?_completeGroup, get?_completeGroup, KState.get?_set_ne _ _ _ _ hka]
    have hb : big_5 (completeGroup 0 ini) (completeGroup 1 (KState.set fin "a" x)) =
        big_5 (completeGroup 0 ini) (completeGroup 1 fin) := by
      simp only [big_5]
      rw [hk "s" (by decide), hk "t" (by decide), hk "v" (by decide)]
    show solveLoop find (big_5 (completeGroup 0 ini) (completeGroup 1 (KState.set fin "a" x))) =
      solveLoop find (big_5 (completeGroup 0 ini) (completeGroup 1 fin))
    rw [hb]

/-- C3: the imperative resolver refines the spec's contract: whenever the
spec-side resolver (which processes the targets strictly in order, passes
the current mappings to each solver call, extracts the single resulting
binding and writes it into the mapping selected by the group-index suffix)
produces a result, the code's resolver returns exactly that pair of
mappings. -/
theorem resolver_refines_spec (ini fin : KState) (find : List String)
    (out : KState × KState) (h : resolverSpec ini fin find = some out) :
    resolver ini fin find = Except.ok out := by
  induction find generalizing ini fin with
  | nil =>
    simp only [resolverSpec, Option.some.injEq] at h
    simp only [resolver, h]
  | cons v rest ih =>
    rw [resolverSpec] at h
    rw [resolver]
    cases hp : problem_solver ini fin v with
    | none => rw [hp] at h; simp at h
    | some ans =>
      rw [hp] at h
      match ans with
      | [] => simp at h
      | [] :: sets => simp at h
      | ((k, value) :: b :: bs) :: sets => simp at h
      | [(k, value)] :: set :: sets => simp at h
      | [[(k, value)]] =>
        simp only at h ⊢
        by_cases h0 : k.back = '0'
        · rw [if_pos h0] at h ⊢
          exact ih _ _ h
        · rw [if_neg h0] at h ⊢
          by_cases h1 : k.back = '1'
          · rw [if_pos h1] at h ⊢
            exact ih _ _ h
          · rw [if_neg h1] at h ⊢
            simp at h

/-- Witness for C3: initial `{s:0, t:0, v:0, a:2}`, final `{v:2}`,
targets `[t1]`: the spec-side resolver fills `t` of the final mapping with
`1`, and the code resolver returns the same pair. -/
theorem resolver_refines_spec_witness :
    resolver iniFull finChain ["t1"] =
      Except.ok (iniFull, [("v", Expr.num 2), ("t", Expr.num 1)]) :=
  resolver_refines_spec iniFull finChain ["t1"]
    (iniFull, [("v", Expr.num 2), ("t", Expr.num 1)]) (by decide)

/-- Splitting a resolver run at a list append: the second half runs on the
mappings produced by the first half, and an error in the first half is
final. -/
theorem resolver_append (ini fin : KState) (l1 l2 : List String) :
    resolver ini fin (l1 ++ l2) =
      match resolver ini fin l1 with
      | .ok (a, b) => resolver a b l2
      | .error e => .error e := by
  induction l1 generalizing ini fin with
  | nil => simp [resolver]
  | cons v rest ih =>
    rw [List.cons_append, resolver]
    conv_rhs => rw [resolver]
    cases hp : problem_solver ini fin v with
    | none => simp
    | some ans =>
      match ans with
      | [] => simp
      | [] :: sets => simp
      | ((k, value) :: bs) :: sets =>
        simp only
        by_cases h0 : k.back = '0'
        · rw [if_pos h0, if_pos h0, ih]
        · rw [if_neg h0, if_neg h0]
          by_cases h1 : k.back = '1'
          · rw [if_pos h1, if_pos h1, ih]
          · rw [if_neg h1, if_neg h1]

/-- C10: if the solver yields no result for the next target, the resolver
errors out (in Python, `answer[0]` raises `TypeError` on `None`) instead of
returning, and the bindings already written for the earlier targets remain
in the state mappings carried by the error — there is no rollback. -/
theorem resolver_error_preserves_progress (ini fin ini' fin' : KState)
    (pre : List String) (v : String) (rest : List String)
    (hpre : resolver ini fin pre = Except.ok (ini', fin'))
    (hfail : problem_solver ini' fin' v = none) :
    resolver ini fin (pre ++ v :: rest) = Except.error (ini', fin') := by
  rw [resolver_append, hpre]
  simp only [resolver, hfail]

/-- Witness for C10: after successfully resolving `t1` (writing `t:1` into
the final mapping), the solver cannot produce `s0` and the resolver errors
with the partially updated mappings intact. -/
theorem resolver_error_preserves_progress_witness :
    resolver iniFull finChain (["t1"] ++ "s0" :: []) =
      Except.error (iniFull, [("v", Expr.num 2), ("t", Expr.num 1)]) :=
  resolver_error_preserves_progress iniFull finChain iniFull
    [("v", Expr.num 2), ("t", Expr.num 1)] ["t1"] "s0" [] (by rfl) (by decide)

-- ## Stepping lemmas for symbolic solver runs

theorem solveLoop_cons_none {find : String} {e : Eqn} {rest : List Eqn}
    (h : trySolution find (solveCAS e) = none) :
    solveLoop find (e :: rest) = solveLoop find rest := by
  rw [solveLoop, h]

theorem solveLoop_cons_some {find : String} {e : Eqn} {rest : List Eqn} {sol : List SolSet}
    (h : trySolution find (solveCAS e) = some sol) :
    solveLoop find (e :: rest) = some sol := by
  rw [solveLoop, h]

theorem solveFor_lin {x : String} {f c b a : Expr} {av : ℚ}
    (hcf : coeffs x f = some (c, b, a))
    (ha : Expr.evalNum? a = some av) (h0 : av = 0) :
    solveFor x f = linRoots x c b := by
  subst h0
  simp only [solveFor, hcf, ha, if_pos]

theorem linRoots_num_num {x : String} {c b : Expr} {bv cv : ℚ}
    (hb : Expr.evalNum? b = some bv) (hc : Expr.evalNum? c = some cv) (hbne : ¬bv = 0) :
    linRoots x c b = [[(x, Expr.num (-cv / bv))]] := by
  simp only [linRoots, hb, hc, if_neg hbne]

theorem solveFirst_single {f : Expr} {x : String} {s : SolSet} {ss : List SolSet}
    (h : solveFor x f = s :: ss) :
    solveFirst f [x] = s :: ss := by
  rw [solveFirst, h]

/-- C8: zero acceleration with `v0 = v1` (the same number is stored in both
mappings) and known `s0, t0, t1`: solving for `s1` performs no division by
zero — equation 1 is symbol-free and skipped, and equation 2 degenerates to
the linear `s1 - s0 = v0·(t1 - t0)` with unit coefficient — and yields
`s1 = s0 + v0·(t1 - t0)` via equation 2. -/
theorem solver_zero_acceleration_s1 (s0 t0 v0 t1 : ℚ) :
    problem_solver
      [("s", Expr.num s0), ("t", Expr.num t0), ("v", Expr.num v0), ("a", Expr.num 0)]
      [("v", Expr.num v0), ("t", Expr.num t1)] "s1" =
      some [[("s1", Expr.num (s0 + v0 * (t1 - t0)))]] := by
  show solveLoop "s1" (big_5
    (completeGroup 0 [("s", Expr.num s0), ("t", Expr.num t0), ("v", Expr.num v0), ("a", Expr.num 0)])
    (completeGroup 1 [("v", Expr.num v0), ("t", Expr.num t1)])) = _
  rw [show completeGroup 0
        [("s", Expr.num s0), ("t", Expr.num t0), ("v", Expr.num v0), ("a", Expr.num 0)] =
      [("s", Expr.num s0), ("t", Expr.num t0), ("v", Expr.num v0), ("a", Expr.num 0)] from rfl,
    show completeGroup 1 [("v", Expr.num v0), ("t", Expr.num t1)] =
      [("v", Expr.num v0), ("t", Expr.num t1), ("s", Expr.sym "s1"), ("a", Expr.sym "a1")] from rfl]
  rw [show big_5
      [("s", Expr.num s0), ("t", Expr.num t0), ("v", Expr.num v0), ("a", Expr.num 0)]
      [("v", Expr.num v0), ("t", Expr.num t1), ("s", Expr.sym "s1"), ("a", Expr.sym "a1")] =
    [ ⟨Expr.num v0, Expr.add (Expr.num v0) (Expr.mul (Expr.num 0) (Expr.sub (Expr.num t1) (Expr.num t0)))⟩,
      ⟨Expr.sub (Expr.sym "s1") (Expr.num s0),
        Expr.add
          (Expr.mul (Expr.mul (Expr.num 0.5) (Expr.num 0)) (Expr.pow (Expr.sub (Expr.num t1) (Expr.num t0)) 2))
          (Expr.mul (Expr.num v0) (Expr.sub (Expr.num t1) (Expr.num t0)))⟩,
      ⟨Expr.pow (Expr.num v0) 2,
        Expr.add (Expr.pow (Expr.num v0) 2)
          (Expr.mul (Expr.mul (Expr.num 2) (Expr.num 0)) (Expr.sub (Expr.sym "s1") (Expr.num s0)))⟩,
      ⟨Expr.sub (Expr.sym "s1") (Expr.num s0),
        Expr.add
          (Expr.mul (Expr.mul (Expr.num (-0.5)) (Expr.num 0)) (Expr.pow (Expr.sub (Expr.num t1) (Expr.num t0)) 2))
          (Expr.mul (Expr.num v0) (Expr.sub (Expr.num t1) (Expr.num t0)))⟩,
      ⟨Expr.sub (Expr.sym "s1") (Expr.num s0),
        Expr.mul (Expr.mul (Expr.num 0.5) (Expr.add (Expr.sym "s1") (Expr.num s0)))
          (Expr.sub (Expr.num t1) (Expr.num t0))⟩ ] from rfl]
  refine Eq.trans (solveLoop_cons_none (show trySolution "s1" (solveCAS
    ⟨Expr.num v0, Expr.add (Expr.num v0) (Expr.mul (Expr.num 0) (Expr.sub (Expr.num t1) (Expr.num t0)))⟩)
    = none from rfl)) ?_
  refine solveLoop_cons_some ?_
  have hB : Expr.evalNum?
      (Expr.sub (Expr.sub (Expr.num 1) (Expr.num 0))
        (Expr.add (Expr.mul (Expr.mul (Expr.num 0.5) (Expr.num 0)) (Expr.num 0))
          (Expr.mul (Expr.num v0) (Expr.sub (Expr.num 0) (Expr.num 0))))) = some 1 :=
    congrArg some (by ring)
  have hC : Expr.evalNum?
      (Expr.sub (Expr.sub (Expr.num 0) (Expr.num s0))
        (Expr.add
          (Expr.mul (Expr.mul (Expr.num 0.5) (Expr.num 0)) (Expr.pow (Expr.sub (Expr.num t1) (Expr.num t0)) 2))
          (Expr.mul (Expr.num v0) (Expr.sub (Expr.num t1) (Expr.num t0))))) =
      some (-(s0 + v0 * (t1 - t0))) :=
    congrArg some (by ring)
  have hsf : solveFor "s1"
      (Expr.sub
        (Expr.sub (Expr.sym "s1") (Expr.num s0))
        (Expr.add
          (Expr.mul (Expr.mul (Expr.num 0.5) (Expr.num 0)) (Expr.pow (Expr.sub (Expr.num t1) (Expr.num t0)) 2))
          (Expr.mul (Expr.num v0) (Expr.sub (Expr.num t1) (Expr.num t0))))) =
      [[("s1", Expr.num (s0 + v0 * (t1 - t0)))]] := by
    rw [solveFor_lin
      (show coeffs "s1"
        (Expr.sub
          (Expr.sub (Expr.sym "s1") (Expr.num s0))
          (Expr.add
            (Expr.mul (Expr.mul (Expr.num 0.5) (Expr.num 0)) (Expr.pow (Expr.sub (Expr.num t1) (Expr.num t0)) 2))
            (Expr.mul (Expr.num v0) (Expr.sub (Expr.num t1) (Expr.num t0))))) = some
        (Expr.sub (Expr.sub (Expr.num 0) (Expr.num s0))
          (Expr.add
            (Expr.mul (Expr.mul (Expr.num 0.5) (Expr.num 0)) (Expr.pow (Expr.sub (Expr.num t1) (Expr.num t0)) 2))
            (Expr.mul (Expr.num v0) (Expr.sub (Expr.num t1) (Expr.num t0)))),
         Expr.sub (Expr.sub (Expr.num 1) (Expr.num 0))
          (Expr.add (Expr.mul (Expr.mul (Expr.num 0.5) (Expr.num 0)) (Expr.num 0))
            (Expr.mul (Expr.num v0) (Expr.sub (Expr.num 0) (Expr.num 0)))),
         Expr.sub (Expr.sub (Expr.num 0) (Expr.num 0))
          (Expr.add (Expr.mul (Expr.mul (Expr.num 0.5) (Expr.num 0)) (Expr.num 0))
            (Expr.mul (Expr.num v0) (Expr.sub (Expr.num 0) (Expr.num 0))))) from rfl)
      (show Expr.evalNum?
        (Expr.sub (Expr.sub (Expr.num 0) (Expr.num 0))
          (Expr.add (Expr.mul (Expr.mul (Expr.num 0.5) (Expr.num 0)) (Expr.num 0))
            (Expr.mul (Expr.num v0) (Expr.sub (Expr.num 0) (Expr.num 0))))) =
        some (((0 : ℚ) - 0) - ((0.5 * 0) * 0 + v0 * (0 - 0))) from rfl)
      (by ring)]
    rw [linRoots_num_num hB hC (by norm_num)]
    rw [show (-(-(s0 + v0 * (t1 - t0))) / 1 : ℚ) = s0 + v0 * (t1 - t0) by ring]
  rw [show solveCAS
      ⟨Expr.sub (Expr.sym "s1") (Expr.num s0),
        Expr.add
          (Expr.mul (Expr.mul (Expr.num 0.5) (Expr.num 0)) (Expr.pow (Expr.sub (Expr.num t1) (Expr.num t0)) 2))
          (Expr.mul (Expr.num v0) (Expr.sub (Expr.num t1) (Expr.num t0)))⟩ =
    solveFirst
      (Expr.sub
        (Expr.sub (Expr.sym "s1") (Expr.num s0))
        (Expr.add
          (Expr.mul (Expr.mul (Expr.num 0.5) (Expr.num 0)) (Expr.pow (Expr.sub (Expr.num t1) (Expr.num t0)) 2))
          (Expr.mul (Expr.num v0) (Expr.sub (Expr.num t1) (Expr.num t0))))) ["s1"] from rfl]
  rw [solveFirst_single hsf]
  rfl

/-- Witness for C1 at the source's `__main__` scenario. -/
theorem solver_first_numeric_match_wins_witness :
    problem_solver iniMain finMain "t1" =
      ((big_5 (completeGroup 0 iniMain) (completeGroup 1 finMain)).find?
          (fun e => (trySolution "t1" (solveCAS e)).isSome)).bind
        (fun e => trySolution "t1" (solveCAS e)) :=
  solver_first_numeric_match_wins iniMain finMain "t1"

/-- Witness for C5's amended claim at the consistent fully known scenario. -/
theorem solver_fully_known_returns_none_witness :
    problem_solver
      [("s", Expr.num 0), ("t", Expr.num 0), ("v", Expr.num 0), ("a", Expr.num 2)]
      [("s", Expr.num 1), ("t", Expr.num 1), ("v", Expr.num 2)] "t1" = none :=
  solver_fully_known_returns_none 0 0 0 2 1 1 2 "t1"

/-- Witness for C7's amended claim at the source's `__main__` final mapping. -/
theorem final_acceleration_placeholder_unused_witness :
    KState.get? (completeGroup 1 finMain) "a" =
      some ((KState.get? finMain "a").getD (Expr.sym "a1")) :=
  final_acceleration_placeholder_unused.1 finMain

/-- Witness for C8 at `s0 = 3, t0 = 5, v0 = 7, t1 = 11`:
`s1 = 3 + 7·(11 − 5) = 45`. -/
theorem solver_zero_acceleration_s1_witness :
    problem_solver
      [("s", Expr.num 3), ("t", Expr.num 5), ("v", Expr.num 7), ("a", Expr.num 0)]
      [("v", Expr.num 7), ("t", Expr.num 11)] "s1" =
      some [[("s1", Expr.num (3 + 7 * (11 - 5)))]] :=
  solver_zero_acceleration_s1 3 5 7 11
